import Mathlib

/-!
Verification development for the Fireflies transcript downloader
(`fireflies_downloader.py`).  The script is a single sequential backfill
loop over a GraphQL API: it lists transcript summaries page by page
(walking a `toDate` watermark backwards), fetches per-transcript detail,
and writes one JSON file per transcript, skipping IDs already present in
the output directory.

The shallow embedding below models JSON values, Python truthiness,
subscripting (with its `KeyError`/`TypeError`/`ValueError` behaviour,
since only `requests` exceptions are caught by the script), the two API
calls, the directory scans and the backfill loop.  Network and
filesystem effects are made explicit: a `World` supplies the response to
every request, a directory is an association list from filename to
(parsed) file content, and the loop is run on explicit state with fuel,
returning the final directory together with the trace of listing
queries and of file writes.  Timestamps are modelled as milliseconds
since the epoch (`datetime` values are in order-preserving bijection
with their underlying timestamps; `datetime.fromtimestamp` is modelled
at UTC).
-/

namespace Fireflies

/-- JSON values, as produced by `response.json()` / `json.load`.
Numbers are modelled as integers (every date in the data model is an
epoch-milliseconds integer). -/
inductive J where
  | null
  | bool (b : Bool)
  | num (n : Int)
  | str (s : String)
  | arr (elems : List J)
  | obj (fields : List (String × J))

mutual

/-- Structural equality of JSON values, modelling Python `==` as used by
set membership and `in`.  (Python dict equality is order-insensitive;
the script only ever compares scalar id values, where this coincides
with structural equality.) -/
def J.beq : J → J → Bool
  | .null, .null => true
  | .bool a, .bool b => a == b
  | .num a, .num b => a == b
  | .str a, .str b => a == b
  | .arr a, .arr b => beqElems a b
  | .obj a, .obj b => beqFields a b
  | _, _ => false

def beqElems : List J → List J → Bool
  | [], [] => true
  | x :: xs, y :: ys => J.beq x y && beqElems xs ys
  | _, _ => false

def beqFields : List (String × J) → List (String × J) → Bool
  | [], [] => true
  | (k1, v1) :: xs, (k2, v2) :: ys => k1 == k2 && J.beq v1 v2 && beqFields xs ys
  | _, _ => false

end

instance : BEq J := ⟨J.beq⟩

/-- Python truthiness (`if x:`): `None`, `False`, `0`, `""`, `[]`, `{}`
are falsy, everything else truthy. -/
def truthy : J → Bool
  | .null => false
  | .bool b => b
  | .num n => n != 0
  | .str s => s != ""
  | .arr l => !l.isEmpty
  | .obj l => !l.isEmpty

/-- The Python exceptions the script can raise (none of which it
catches, apart from `requests.exceptions.RequestException`). -/
inductive PyErr where
  | keyError
  | typeError
  | valueError
deriving DecidableEq

/-- Dictionary lookup as used where every exception is swallowed
(`except: pass`): `some` the value of field `k`, `none` on a missing
key or a non-object. -/
def getKey (j : J) (k : String) : Option J :=
  match j with
  | .obj fields => (fields.find? (fun p => p.1 == k)).map (fun p => p.2)
  | _ => none

/-- Python subscripting `j[k]` with a string key: `KeyError` if the key
is missing from a dict, `TypeError` if `j` is not a dict. -/
def pySubscript (j : J) (k : String) : Except PyErr J :=
  match j with
  | .obj fields =>
    match fields.find? (fun p => p.1 == k) with
    | some p => .ok p.2
    | none => .error .keyError
  | _ => .error .typeError

/-- Substring test, for Python `needle in haystack` on strings. -/
def strContains (hay needle : String) : Bool :=
  (List.range (hay.toList.length + 1)).any
    (fun i => needle.toList.isPrefixOf (hay.toList.drop i))

/-- Python `k in j`: key membership for dicts, element membership for
lists, substring for strings, `TypeError` otherwise (in particular for
`None`). -/
def pyIn (k : String) (j : J) : Except PyErr Bool :=
  match j with
  | .obj fields => .ok (fields.any (fun p => p.1 == k))
  | .arr l => .ok (l.contains (J.str k))
  | .str s => .ok (strContains s k)
  | _ => .error .typeError

/-- The value of a non-empty all-digit character list. -/
def parseNatDigits (l : List Char) : Option Nat :=
  if l.isEmpty then none
  else if l.all Char.isDigit then
    some (l.foldl (fun acc c => 10 * acc + (c.toNat - 48)) 0)
  else none

/-- Python `int(...)` applied to a string: an optional minus sign
followed by decimal digits (whitespace/underscore edge cases are out of
the data model). -/
def pyStrToInt (s : String) : Option Int :=
  match s.toList with
  | '-' :: rest => (parseNatDigits rest).map (fun n => -(n : Int))
  | l => (parseNatDigits l).map (fun n => (n : Int))

/-- Python `int(x)`: identity on integers, `True`/`False` become `1`/`0`,
decimal strings are parsed (`ValueError` if unparsable), anything else
is a `TypeError`. -/
def pyInt : J → Except PyErr Int
  | .num n => .ok n
  | .bool b => .ok (if b then 1 else 0)
  | .str s =>
    match pyStrToInt s with
    | some n => .ok n
    | none => .error .valueError
  | _ => .error .typeError

/-- The outcome of one HTTP request: either a transport-level failure
(`requests.exceptions.RequestException`) or a response with a status
code and a parsed JSON body. -/
inductive Resp where
  | transportError
  | http (status : Int) (body : J)

/-- `FirefliesDownloader.get_transcript_content`, as a function of the
response the network produced for the detail query.  Transport errors
are caught and become `None`; a non-200 status or a GraphQL `errors`
payload is logged and becomes `None`; otherwise the function returns
`data["data"]["transcript"]`, whose `KeyError`/`TypeError` (a 200
response lacking those keys) is NOT caught — only
`requests.exceptions.RequestException` is. -/
def get_transcript_content (resp : Resp) : Except PyErr J :=
  match resp with
  | .transportError => .ok .null
  | .http status body =>
    if status ≠ 200 then .ok .null
    else
      match pyIn "errors" body with
      | .error e => .error e
      | .ok true => .ok .null
      | .ok false =>
        match pySubscript body "data" with
        | .error e => .error e
        | .ok d => pySubscript d "transcript"

/-- The GraphQL variables of the listing query (`get_transcripts`,
lines 87–90): the limit is clamped with `min(limit, 25)`; `toDate` is
the watermark datetime (serialized with second precision on the wire;
we keep the underlying timestamp). -/
structure ListingVars where
  limit : Int
  toDate : Option Int
deriving DecidableEq

def listingVariables (limit : Int) (to_date : Option Int) : ListingVars :=
  ⟨min limit 25, to_date⟩

/-- The environment: the response the remote API gives to each listing
request (keyed by its variables) and to each detail request (keyed by
the transcript id passed in). -/
structure World where
  listing : ListingVars → Resp
  detail : J → Resp

/-- `FirefliesDownloader.get_transcripts`: issues the listing query and
returns the raw envelope; a transport error or a GraphQL `errors`
payload becomes `None`.  The status code is never checked here, and
`"errors" in data` can itself raise (uncaught) if the body is not a
container. -/
def get_transcripts (w : World) (limit : Int) (to_date : Option Int) :
    Except PyErr J :=
  match w.listing (listingVariables limit to_date) with
  | .transportError => .ok .null
  | .http _ body =>
    match pyIn "errors" body with
    | .error e => .error e
    | .ok true => .ok .null
    | .ok false => .ok body

/-- The output directory: an association list from filename to file
content; `none` stands for a file whose bytes do not parse as JSON. -/
abbrev Dir := List (String × Option J)

/-- Python `s.endswith(suffix)`: a character-level suffix test. -/
def pyEndsWith (s suffix : String) : Bool :=
  suffix.toList.isSuffixOf s.toList

/-- Writing a JSON file (`json.dump` to `filepath`): overwrites any
existing file of the same name. -/
def writeFile (dir : Dir) (name : String) (content : J) : Dir :=
  (name, some content) :: dir.filter (fun e => e.1 != name)

/-- The duplicate-avoidance scan at the top of `save_transcripts`
(lines 118–129): collect `data['id']` of every `.json` file in the
output directory; any exception for a single file (unparsable JSON,
missing `id`, non-dict content) is swallowed by the bare `except: pass`
and the scan continues with the next file. -/
def scanExistingIds (dir : Dir) : List J :=
  dir.foldr
    (fun entry acc =>
      if pyEndsWith entry.1 ".json" then
        match entry.2 with
        | some j =>
          match getKey j "id" with
          | some v => v :: acc
          | none => acc
        | none => acc
      else acc)
    []

/-- `if earliest_date is None or date_obj < earliest_date:
earliest_date = date_obj` — the running-minimum update used both in the
backfill loop (line 172) and in `main`'s resume scan (line 203). -/
def updateMin (acc : Option Int) (d : Int) : Option Int :=
  match acc with
  | none => some d
  | some e => if d < e then some d else some e

/-- The body of `main`'s resume scan (lines 197–205): walk the files in
order accumulating the minimum date.  The whole `for` loop is inside a
single `try`, so the first file that raises (unparsable JSON, missing
`date`, non-numeric `date`) aborts the remainder of the scan, keeping
the minimum accumulated so far (the handler prints and falls through). -/
def mainScanGo : List (String × Option J) → Option Int → Option Int
  | [], acc => acc
  | entry :: rest, acc =>
    if pyEndsWith entry.1 ".json" then
      match entry.2 with
      | none => acc
      | some j =>
        match getKey j "date" with
        | none => acc
        | some v =>
          match pyInt v with
          | .ok d => mainScanGo rest (updateMin acc d)
          | .error _ => acc
    else mainScanGo rest acc

/-- `main`'s default resume watermark: the result of the scan starting
with no accumulated minimum.  Dates are kept in epoch milliseconds
(`datetime.fromtimestamp(int(data["date"]) / 1000)` is strictly
monotone in the milliseconds value). -/
def mainScanEarliest (dir : Dir) : Option Int := mainScanGo dir none

/-- One character of the title-sanitization comprehension (line 161):
`c.isalnum() or c in (' ', '-', '_', '.')`, with `isalnum` modelled on
its ASCII fragment (every title in the development is ASCII). -/
def keepChar (c : Char) : Bool :=
  c.isAlpha || c.isDigit || c == ' ' || c == '-' || c == '_' || c == '.'

/-- `safe_title = ''.join(c for c in transcript['title'] if ...)`,
as a character list. -/
def safeTitle (title : String) : List Char :=
  title.toList.filter keepChar

/-- Proleptic-Gregorian date of a day count since 1970-01-01
(Howard Hinnant's `civil_from_days`); all intermediate quantities are
non-negative, where truncating and flooring division agree. -/
def civilFromDays (z0 : Int) : Int × Int × Int :=
  let z := z0 + 719468
  let era : Int := (if 0 ≤ z then z else z - 146096).tdiv 146097
  let doe := z - era * 146097
  let yoe := (doe - doe.tdiv 1460 + doe.tdiv 36524 - doe.tdiv 146096).tdiv 365
  let y := yoe + era * 400
  let doy := doe - (365 * yoe + yoe.tdiv 4 - yoe.tdiv 100)
  let mp := (5 * doy + 2).tdiv 153
  let d := doy - (153 * mp + 2).tdiv 5 + 1
  let m := mp + (if mp < 10 then 3 else -9)
  (y + (if m ≤ 2 then 1 else 0), m, d)

def pad2 (n : Int) : String :=
  if 0 ≤ n ∧ n < 10 then "0" ++ toString n else toString n

/-- `date_obj.strftime('%Y-%m-%d')` for a timestamp in epoch
milliseconds (`date_obj = datetime.fromtimestamp(int(date)/1000)`,
modelled at UTC). -/
def dateStr (ms : Int) : String :=
  let days := (ms.fdiv 1000).fdiv 86400
  let ymd := civilFromDays days
  toString ymd.1 ++ "-" ++ pad2 ymd.2.1 ++ "-" ++ pad2 ymd.2.2

/-- The filename composed on line 162:
`f"{date_obj.strftime('%Y-%m-%d')}_{safe_title[:50]}.json"`. -/
def fileNameFor (ms : Int) (title : String) : String :=
  dateStr ms ++ "_" ++ String.mk ((safeTitle title).take 50) ++ ".json"

/-- The mutable state of one page of the backfill loop: the output
directory, the log of file writes made so far in this run, and
`earliest_date` (reset to `None` at the top of each page, line 145). -/
structure PageState where
  dir : Dir
  writes : List (String × J)
  earliest : Option Int

/-- Lines 159–173, applied to the object selected for persistence:
derive the timestamp from its `date` (`int(...)` may raise), sanitize
its title (iterating a non-string raises), compose the filename, write
the file, and update `earliest_date`. -/
def saveRecord (st : PageState) (t2 : J) : Except PyErr PageState :=
  match pySubscript t2 "date" with
  | .error e => .error e
  | .ok dateV =>
    match pyInt dateV with
    | .error e => .error e
    | .ok dms =>
      match pySubscript t2 "title" with
      | .error e => .error e
      | .ok (J.str s) =>
        .ok ⟨writeFile st.dir (fileNameFor dms s) t2,
             st.writes ++ [(fileNameFor dms s, t2)],
             updateMin st.earliest dms⟩
      | .ok _ => .error .typeError

/-- The body of `for transcript in transcripts` (lines 146–175).
A record whose id is in `existing_ids` is skipped (after the skip
announcement reads `transcript['title']`); otherwise the detail fetch
runs, a truthy result replaces the summary record, and the merged
object is saved.  Note the saved id is never added to `existing_ids`. -/
def processRecord (w : World) (existing : List J) (st : PageState) (t : J) :
    Except PyErr PageState :=
  match pySubscript t "id" with
  | .error e => .error e
  | .ok tid =>
    if existing.contains tid then
      match pySubscript t "title" with
      | .error e => .error e
      | .ok _ => .ok st
    else
      match pySubscript t "title" with
      | .error e => .error e
      | .ok _ =>
        match get_transcript_content (w.detail tid) with
        | .error e => .error e
        | .ok content =>
          saveRecord st (if truthy content then content else t)

/-- Run the page body over the records in order.  An exception stops
the page but keeps the files already written (state before the failing
record). -/
def processPageGo (w : World) (existing : List J) :
    List J → PageState → PageState × Option PyErr
  | [], st => (st, none)
  | t :: rest, st =>
    match processRecord w existing st t with
    | .ok st2 => processPageGo w existing rest st2
    | .error e => (st, some e)

def processPage (w : World) (existing : List J) (dir : Dir) (l : List J) :
    PageState × Option PyErr :=
  processPageGo w existing l ⟨dir, [], none⟩

/-- Lines 134–141: `if not result or "data" not in result or
"transcripts" not in result["data"]: break`, then
`transcripts = result["data"]["transcripts"]; if not transcripts:
break`.  Returns `none` for each of the break cases, the transcripts
value otherwise; the membership tests themselves can raise. -/
def listingPageCheck (result : J) : Except PyErr (Option J) :=
  if truthy result = false then .ok none
  else
    match pyIn "data" result with
    | .error e => .error e
    | .ok false => .ok none
    | .ok true =>
      match pySubscript result "data" with
      | .error e => .error e
      | .ok d =>
        match pyIn "transcripts" d with
        | .error e => .error e
        | .ok false => .ok none
        | .ok true =>
          match pySubscript d "transcripts" with
          | .error e => .error e
          | .ok ts => if truthy ts = false then .ok none else .ok (some ts)

/-- `for transcript in transcripts`: iterating anything but a list of
records ends in an uncaught `TypeError` (directly for scalars; for a
string or dict, at the first `transcript['id']` subscript). -/
def asElems : J → Except PyErr (List J)
  | .arr l => .ok l
  | _ => .error .typeError

inductive RunOutcome where
  | finished
  | crashed (e : PyErr)
  | fuelExhausted
deriving DecidableEq

/-- Result of a (fuel-bounded) run of the backfill loop: the final
directory, the trace of `last_date` watermarks passed to the listing
query, in order, the log of file writes, and how the loop ended. -/
structure RunResult where
  dir : Dir
  queries : List Int
  writes : List (String × J)
  outcome : RunOutcome

/-- The `while True` loop of `save_transcripts` (lines 132–182),
driven by explicit fuel (the loop has no structural bound; actual
termination is data-driven).  After a page with `earliest_date` set the
watermark becomes `earliest_date - timedelta(seconds=1)` (one second =
1000 ms); with no `earliest_date` the loop breaks. -/
def runLoop (w : World) (existing : List J) :
    Nat → Int → Dir → List Int → List (String × J) → RunResult
  | 0, _, dir, qs, ws => ⟨dir, qs, ws, .fuelExhausted⟩
  | fuel + 1, lastDate, dir, qs, ws =>
    match get_transcripts w 25 (some lastDate) with
    | .error e => ⟨dir, qs ++ [lastDate], ws, .crashed e⟩
    | .ok result =>
      match listingPageCheck result with
      | .error e => ⟨dir, qs ++ [lastDate], ws, .crashed e⟩
      | .ok none => ⟨dir, qs ++ [lastDate], ws, .finished⟩
      | .ok (some ts) =>
        match asElems ts with
        | .error e => ⟨dir, qs ++ [lastDate], ws, .crashed e⟩
        | .ok l =>
          match processPage w existing dir l with
          | (st, some e) =>
            ⟨st.dir, qs ++ [lastDate], ws ++ st.writes, .crashed e⟩
          | (st, none) =>
            match st.earliest with
            | some e =>
              runLoop w existing fuel (e - 1000) st.dir (qs ++ [lastDate])
                (ws ++ st.writes)
            | none => ⟨st.dir, qs ++ [lastDate], ws ++ st.writes, .finished⟩

/-- `FirefliesDownloader.save_transcripts`: scan the output directory
for existing ids once, then run the loop starting from the caller's
watermark (`to_date or datetime.now()`, resolved by the caller here). -/
def save_transcripts (w : World) (dir : Dir) (lastDate : Int) (fuel : Nat) :
    RunResult :=
  runLoop w (scanExistingIds dir) fuel lastDate dir [] []

/-- The listing call followed by the envelope checks, as seen by one
loop iteration: `none` means the loop breaks at this page. -/
def pageOf (w : World) (t : Int) : Except PyErr (Option J) :=
  match get_transcripts w 25 (some t) with
  | .error e => .error e
  | .ok r => listingPageCheck r

/-- The dates of the objects in a write log (each saved object carries
the `date` its timestamp was derived from). -/
def savedDates (writes : List (String × J)) : List Int :=
  writes.filterMap (fun p => (getKey p.2 "date").bind (fun v => (pyInt v).toOption))

/-- Folding the script's running-minimum update over a list of dates. -/
def foldMin (acc : Option Int) (l : List Int) : Option Int :=
  l.foldl updateMin acc

/-- The dates the resume scan can actually derive: the `date` of every
`.json` file that parses and carries an `int(...)`-convertible date. -/
def validDates (dir : Dir) : List Int :=
  dir.filterMap (fun e =>
    if pyEndsWith e.1 ".json" then
      (e.2.bind (fun j => getKey j "date")).bind (fun v => (pyInt v).toOption)
    else none)

/-- A directory entry the resume scan can read without raising. -/
def scanOk (e : String × Option J) : Prop :=
  pyEndsWith e.1 ".json" = true →
    ∃ j v d, e.2 = some j ∧ getKey j "date" = some v ∧ pyInt v = .ok d

/-- A well-formed listing response carrying exactly one summary
record. -/
def listPage (r : J) : Resp :=
  .http 200 (J.obj [("data", J.obj [("transcripts", J.arr [r])])])

/-- A summary record with the three fields the loop touches. -/
def mkRecord (i ttl : String) (d : Int) : J :=
  J.obj [("id", J.str i), ("title", J.str ttl), ("date", J.num d)]

/-- A world whose page at watermark `t0` is a single record the output
directory already holds, and whose page at every other watermark is a
single fresh record: what a backfill meeting a fully-duplicate page in
the middle of the history looks like. -/
def dupWorld : World :=
  ⟨fun v => if v.toDate = some 6000000 then listPage (mkRecord "a" "A" 5000000)
    else listPage (mkRecord "b" "B" 3000000),
   fun _ => .transportError⟩

/-- An output directory already holding the record `dupWorld` serves at
the first page. -/
def dupDir : Dir := [("1970-01-01_A.json", some (mkRecord "a" "A" 5000000))]

/-- A world that returns a record with id `dup` on two successive
pages (with different dates), and nothing afterwards. -/
def rescanWorld : World :=
  ⟨fun v => if v.toDate = some 9000000 then listPage (mkRecord "dup" "B" 8000000)
    else if v.toDate = some 7999000 then listPage (mkRecord "dup" "B2" 6000000)
    else .transportError,
   fun _ => .transportError⟩

/-- A world whose detail endpoint answers every query with a 200
response that has neither an `errors` nor a `data` key. -/
def missingDataWorld : World :=
  ⟨fun _ => listPage (mkRecord "n1" "N" 7000000),
   fun _ => .http 200 (J.obj [("ok", J.bool true)])⟩

/-- A world whose listing returns a record whose `date` field is a
non-numeric string. -/
def badDateWorld : World :=
  ⟨fun _ => listPage (J.obj [("id", J.str "n2"), ("title", J.str "N2"),
      ("date", J.str "not-a-number")]),
   fun _ => .transportError⟩

/-- A world serving one fixed fresh record on every page. -/
def c2World : World :=
  ⟨fun _ => listPage (mkRecord "w2" "W" 5000000), fun _ => .transportError⟩

/-- A world whose detail endpoint answers every query with a full
transcript object for the requested id. -/
def detailWorld : World :=
  ⟨fun _ => .transportError,
   fun tid => .http 200 (J.obj [("data", J.obj [("transcript",
      J.obj [("id", tid), ("title", J.str "Full"), ("date", J.num 1500000)])])])⟩

/-- A world whose only page (at watermark 5000000) repeats the one
record a complete previous run already saved. -/
def c5World : World :=
  ⟨fun v => if v.toDate = some 5000000 then listPage (mkRecord "c" "C" 4000000)
    else .transportError,
   fun _ => .transportError⟩

/-- The output directory left by that complete previous run. -/
def c5Dir : Dir := [("1970-01-01_C.json", some (mkRecord "c" "C" 4000000))]

/-- Two pages of the same id: page one at watermark `t0` holds the
record `(i, ttl, d)`, page two (at the advanced watermark `d - 1000`)
holds the same id and title one second earlier, and everything else is
out of data. -/
def twoPageWorld (i ttl : String) (d t0 : Int) : World :=
  ⟨fun v => if v.toDate = some t0 then listPage (mkRecord i ttl d)
    else if v.toDate = some (d - 1000) then listPage (mkRecord i ttl (d - 1000))
    else .transportError,
   fun _ => .transportError⟩

/-! ### Basic lemmas about the embedding -/

theorem getKey_of_pySubscript {j : J} {k : String} {v : J}
    (h : pySubscript j k = .ok v) : getKey j k = some v := by
  cases j with
  | obj fields =>
    have h' : (match fields.find? (fun p => p.1 == k) with
        | some p => (Except.ok p.2 : Except PyErr J)
        | none => Except.error PyErr.keyError) = Except.ok v := h
    show (fields.find? (fun p => p.1 == k)).map (fun p => p.2) = some v
    cases hf : fields.find? (fun p => p.1 == k) with
    | some p =>
      rw [hf] at h'
      simp only [Except.ok.injEq] at h'
      simp [h']
    | none => rw [hf] at h'; cases h'
  | null => cases h
  | bool b => cases h
  | num n => cases h
  | str s => cases h
  | arr l => cases h

theorem updateMin_some (e d : Int) : updateMin (some e) d = some (min e d) := by
  show (if d < e then some d else some e) = some (min e d)
  rcases lt_or_ge d e with h | h
  · rw [if_pos h, min_eq_right h.le]
  · rw [if_neg (not_lt.mpr h), min_eq_left h]

theorem foldMin_some (a : Int) (l : List Int) :
    foldMin (some a) l = some (l.foldl min a) := by
  induction l generalizing a with
  | nil => rfl
  | cons d ds ih =>
    show foldMin (updateMin (some a) d) ds = _
    rw [updateMin_some, ih]
    rfl

theorem foldMin_min? (l : List Int) : foldMin none l = l.min? := by
  cases l with
  | nil => rfl
  | cons d ds =>
    show foldMin (some d) ds = _
    rw [foldMin_some]
    rfl

theorem processRecord_skip {w : World} {existing : List J} {st : PageState} {t tid : J}
    (hid : pySubscript t "id" = .ok tid)
    (hmem : existing.contains tid = true)
    (htitle : ∃ v, pySubscript t "title" = Except.ok v) :
    processRecord w existing st t = .ok st := by
  obtain ⟨v, hv⟩ := htitle
  simp [processRecord, hid, hmem, hv]

theorem saveRecord_ok_cases {st st2 : PageState} {t2 : J}
    (h : saveRecord st t2 = .ok st2) :
    ∃ fname dms,
      st2 = ⟨writeFile st.dir fname t2, st.writes ++ [(fname, t2)],
             updateMin st.earliest dms⟩ ∧
      (getKey t2 "date").bind (fun v => (pyInt v).toOption) = some dms := by
  unfold saveRecord at h
  split at h
  · cases h
  · rename_i dateV hdate
    split at h
    · cases h
    · rename_i dms hdms
      split at h
      · cases h
      · rename_i s hs
        cases h
        refine ⟨_, dms, rfl, ?_⟩
        rw [getKey_of_pySubscript hdate]
        simp [hdms, Except.toOption]
      · cases h

theorem processRecord_ok_cases {w : World} {existing : List J} {st st2 : PageState} {t : J}
    (h : processRecord w existing st t = .ok st2) :
    st2 = st ∨
    ∃ fname obj dms,
      st2 = ⟨writeFile st.dir fname obj, st.writes ++ [(fname, obj)],
             updateMin st.earliest dms⟩ ∧
      (getKey obj "date").bind (fun v => (pyInt v).toOption) = some dms := by
  unfold processRecord at h
  split at h
  · cases h
  · split at h
    · split at h
      · cases h
      · cases h; exact Or.inl rfl
    · split at h
      · cases h
      · split at h
        · cases h
        · rcases saveRecord_ok_cases h with ⟨fname, dms, rfl, hdate⟩
          exact Or.inr ⟨fname, _, dms, rfl, hdate⟩

theorem processPageGo_all_skip {w : World} {existing : List J} :
    ∀ (l : List J) (st : PageState),
    (∀ t ∈ l, ∃ tid, pySubscript t "id" = .ok tid ∧
      existing.contains tid = true ∧ ∃ v, pySubscript t "title" = Except.ok v) →
    processPageGo w existing l st = (st, none)
  | [], _, _ => rfl
  | t :: rest, st, h => by
    obtain ⟨tid, hid, hmem, htitle⟩ := h t (List.mem_cons_self t rest)
    have hr := @processRecord_skip w existing st t tid hid hmem htitle
    show (match processRecord w existing st t with
      | .ok st2 => processPageGo w existing rest st2
      | .error e => (st, some e)) = (st, none)
    rw [hr]
    exact processPageGo_all_skip rest st (fun u hu => h u (List.mem_cons_of_mem _ hu))

theorem processPageGo_spec {w : World} {existing : List J} :
    ∀ (l : List J) (st st' : PageState) (err : Option PyErr),
    processPageGo w existing l st = (st', err) →
    ∃ suffix, st'.writes = st.writes ++ suffix ∧
      st'.earliest = foldMin st.earliest (savedDates suffix)
  | [], st, st', err, h => by
    cases h
    exact ⟨[], by simp, by simp [savedDates, foldMin]⟩
  | t :: rest, st, st', err, h => by
    revert h
    show (match processRecord w existing st t with
      | .ok st2 => processPageGo w existing rest st2
      | .error e => (st, some e)) = (st', err) → _
    cases hr : processRecord w existing st t with
    | error e =>
      intro h
      cases h
      exact ⟨[], by simp, by simp [savedDates, foldMin]⟩
    | ok st2 =>
      intro h
      obtain ⟨suffix, hw, he⟩ := processPageGo_spec rest st2 st' err h
      rcases processRecord_ok_cases hr with rfl | ⟨fname, obj, dms, rfl, hdate⟩
      · exact ⟨suffix, hw, he⟩
      · refine ⟨(fname, obj) :: suffix, ?_, ?_⟩
        · rw [hw]
          simp
        · rw [he]
          show _ = foldMin st.earliest (savedDates ((fname, obj) :: suffix))
          have hcons : savedDates ((fname, obj) :: suffix) = dms :: savedDates suffix := by
            simp [savedDates, List.filterMap_cons, hdate]
          rw [hcons]
          rfl

theorem processPage_earliest {w : World} {existing : List J} {dir : Dir}
    {l : List J} {st : PageState}
    (h : processPage w existing dir l = (st, none)) :
    st.earliest = (savedDates st.writes).min? := by
  obtain ⟨suffix, hw, he⟩ :=
    processPageGo_spec l ⟨dir, [], none⟩ st none h
  simp only [List.nil_append] at hw
  rw [he, hw, foldMin_min?]

theorem runLoop_break {w : World} {existing : List J} {fuel : Nat} {last : Int}
    {dir : Dir} {qs : List Int} {ws : List (String × J)}
    (h : pageOf w last = .ok none) :
    runLoop w existing (fuel + 1) last dir qs ws =
      ⟨dir, qs ++ [last], ws, .finished⟩ := by
  unfold pageOf at h
  cases hg : get_transcripts w 25 (some last) with
  | error e => rw [hg] at h; cases h
  | ok r =>
    rw [hg] at h
    have h' : listingPageCheck r = .ok none := h
    simp [runLoop, hg, h']

theorem runLoop_page_crash {w : World} {existing : List J} {fuel : Nat} {last : Int}
    {dir : Dir} {qs : List Int} {ws : List (String × J)} {l : List J}
    {st : PageState} {err : PyErr}
    (hpage : pageOf w last = .ok (some (J.arr l)))
    (hproc : processPage w existing dir l = (st, some err)) :
    runLoop w existing (fuel + 1) last dir qs ws =
      ⟨st.dir, qs ++ [last], ws ++ st.writes, .crashed err⟩ := by
  unfold pageOf at hpage
  cases hg : get_transcripts w 25 (some last) with
  | error e2 => rw [hg] at hpage; cases hpage
  | ok r =>
    rw [hg] at hpage
    have h' : listingPageCheck r = .ok (some (J.arr l)) := hpage
    simp [runLoop, hg, h', asElems, hproc]

theorem runLoop_page_finish {w : World} {existing : List J} {fuel : Nat} {last : Int}
    {dir : Dir} {qs : List Int} {ws : List (String × J)} {l : List J} {st : PageState}
    (hpage : pageOf w last = .ok (some (J.arr l)))
    (hproc : processPage w existing dir l = (st, none))
    (he : st.earliest = none) :
    runLoop w existing (fuel + 1) last dir qs ws =
      ⟨st.dir, qs ++ [last], ws ++ st.writes, .finished⟩ := by
  unfold pageOf at hpage
  cases hg : get_transcripts w 25 (some last) with
  | error e2 => rw [hg] at hpage; cases hpage
  | ok r =>
    rw [hg] at hpage
    have h' : listingPageCheck r = .ok (some (J.arr l)) := hpage
    simp [runLoop, hg, h', asElems, hproc, he]

theorem runLoop_advance {w : World} {existing : List J} {fuel : Nat} {last : Int}
    {dir : Dir} {qs : List Int} {ws : List (String × J)} {l : List J}
    {st : PageState} {e : Int}
    (hpage : pageOf w last = .ok (some (J.arr l)))
    (hproc : processPage w existing dir l = (st, none))
    (he : st.earliest = some e) :
    runLoop w existing (fuel + 1) last dir qs ws =
      runLoop w existing fuel (e - 1000) st.dir (qs ++ [last]) (ws ++ st.writes) := by
  unfold pageOf at hpage
  cases hg : get_transcripts w 25 (some last) with
  | error e2 => rw [hg] at hpage; cases hpage
  | ok r =>
    rw [hg] at hpage
    have h' : listingPageCheck r = .ok (some (J.arr l)) := hpage
    simp [runLoop, hg, h', asElems, hproc, he]

theorem runLoop_all_duplicates {w : World} {existing : List J} {fuel : Nat}
    {last : Int} {dir : Dir} {qs : List Int} {ws : List (String × J)} {l : List J}
    (hpage : pageOf w last = .ok (some (J.arr l)))
    (hdup : ∀ t ∈ l, ∃ tid, pySubscript t "id" = .ok tid ∧
      existing.contains tid = true ∧ ∃ v, pySubscript t "title" = Except.ok v) :
    runLoop w existing (fuel + 1) last dir qs ws =
      ⟨dir, qs ++ [last], ws, .finished⟩ := by
  have hproc : processPage w existing dir l = (⟨dir, [], none⟩, none) :=
    processPageGo_all_skip l ⟨dir, [], none⟩ hdup
  have h := @runLoop_page_finish w existing fuel last dir qs ws l
    ⟨dir, [], none⟩ hpage hproc rfl
  simpa using h

theorem mainScanGo_all_ok :
    ∀ (dir : Dir) (acc : Option Int), (∀ e ∈ dir, scanOk e) →
    mainScanGo dir acc = foldMin acc (validDates dir)
  | [], _, _ => rfl
  | (name, c) :: rest, acc, h => by
    have htail : ∀ x ∈ rest, scanOk x := fun x hx => h x (List.mem_cons_of_mem _ hx)
    by_cases hjson : pyEndsWith name ".json"
    · obtain ⟨j, v, d, hj, hv, hd⟩ := h (name, c) (List.mem_cons_self _ _) hjson
      cases hj
      simp [mainScanGo, hjson, hv, hd, validDates, List.filterMap_cons, foldMin,
        Except.toOption, Option.bind, mainScanGo_all_ok rest _ htail]
    · simp [mainScanGo, hjson, validDates, List.filterMap_cons, foldMin,
        mainScanGo_all_ok rest _ htail]

/-! ### The claims -/

/-- C3 (counterexample): sanitizing the title `"Q&A: Plan/Review?"`
yields `"QA PlanReview"` — removing the `/` leaves `Plan` and `Review`
adjacent with no space — and not the claimed `"QA Plan Review"`. -/
theorem c3_counterexample :
    String.mk ((safeTitle "Q&A: Plan/Review?").take 50) = "QA PlanReview" ∧
    ("QA PlanReview" : String) ≠ "QA Plan Review" :=
  ⟨rfl, by decide⟩

/-- C3 (amended): the title-sanitization keeps exactly the characters
that are alphanumeric, space, hyphen, underscore or period (a
subsequence of the original title), truncates to 50 characters, and on
the input `"Q&A: Plan/Review?"` produces exactly `"QA PlanReview"`. -/
theorem c3_title_sanitization :
    (∀ s : String, ∀ c ∈ (safeTitle s).take 50, keepChar c = true) ∧
    (∀ s : String, List.Sublist ((safeTitle s).take 50) s.toList) ∧
    (∀ s : String, ((safeTitle s).take 50).length ≤ 50) ∧
    String.mk ((safeTitle "Q&A: Plan/Review?").take 50) = "QA PlanReview" := by
  refine ⟨?_, ?_, ?_, rfl⟩
  · intro s c hc
    exact List.of_mem_filter (List.mem_of_mem_take hc)
  · intro s
    exact (List.take_sublist _ _).trans (List.filter_sublist _)
  · intro s
    exact List.length_take_le _ _

theorem c3_witness :
    keepChar 'Q' = true ∧ List.Sublist ((safeTitle "Q&A").take 50) "Q&A".toList ∧
    ((safeTitle "Q&A").take 50).length ≤ 50 :=
  ⟨c3_title_sanitization.1 "Q&A" 'Q' (by decide), c3_title_sanitization.2.1 "Q&A",
   c3_title_sanitization.2.2.1 "Q&A"⟩

/-- C9: the `limit` variable sent in the listing query equals
`min(requested, 25)` for every caller-supplied page size: requests
above 25 are clamped to 25 and requests at or below 25 pass through
unchanged. -/
theorem c9_limit_clamped :
    (∀ (n : Int) (t : Option Int), (listingVariables n t).limit = min n 25) ∧
    (∀ (n : Int) (t : Option Int), 25 < n → (listingVariables n t).limit = 25) ∧
    (∀ (n : Int) (t : Option Int), n ≤ 25 → (listingVariables n t).limit = n) :=
  ⟨fun _ _ => rfl, fun _ _ h => min_eq_right h.le, fun _ _ h => min_eq_left h⟩

theorem c9_witness :
    (listingVariables 100 none).limit = 25 ∧ (listingVariables 10 none).limit = 10 :=
  ⟨c9_limit_clamped.2.1 100 none (by decide), c9_limit_clamped.2.2 10 none (by decide)⟩

/-- C7 (counterexample): with an unparsable `bad.json` listed first and
a valid `good.json` (date 5000000) after it, `main`'s resume scan
returns no watermark at all — the single `try` around the whole loop
aborts the scan at the first bad file — while with the same files in
the opposite order it returns `some 5000000`.  The claimed
position-independent minimum over valid files is false. -/
theorem c7_counterexample :
    mainScanEarliest
        [("bad.json", none), ("good.json", some (J.obj [("date", J.num 5000000)]))] =
      none ∧
    mainScanEarliest
        [("good.json", some (J.obj [("date", J.num 5000000)])), ("bad.json", none)] =
      some 5000000 :=
  ⟨rfl, rfl⟩

/-- C7 (amended): `main`'s watermark scan stops at the first `.json`
file that fails to read (keeping only the minimum accumulated before
it), the id scan in `save_transcripts` does skip a bad file and
continue, and only when every file is readable does the watermark equal
the minimum date over all files. -/
theorem c7_scan_abort :
    (∀ (name : String) (rest : Dir) (acc : Option Int),
      pyEndsWith name ".json" = true → mainScanGo ((name, none) :: rest) acc = acc) ∧
    (∀ (name : String) (rest : Dir), pyEndsWith name ".json" = true →
      scanExistingIds ((name, none) :: rest) = scanExistingIds rest) ∧
    (∀ dir : Dir, (∀ e ∈ dir, scanOk e) →
      mainScanEarliest dir = (validDates dir).min?) := by
  refine ⟨?_, ?_, ?_⟩
  · intro name rest acc hjson
    simp [mainScanGo, hjson]
  · intro name rest hjson
    simp [scanExistingIds, hjson]
  · intro dir h
    rw [mainScanEarliest, mainScanGo_all_ok dir none h, foldMin_min?]

theorem c7_witness :
    mainScanGo [("x.json", none), ("y.json", some (J.obj [("date", J.num 1)]))] none =
      none ∧
    scanExistingIds [("x.json", none), ("y.json", some (J.obj [("id", J.str "y")]))] =
      [J.str "y"] ∧
    mainScanEarliest [("y.json", some (J.obj [("date", J.num 1)]))] = some 1 := by
  refine ⟨c7_scan_abort.1 "x.json" _ none rfl, ?_, ?_⟩
  · rw [c7_scan_abort.2.1 "x.json" _ rfl]
    rfl
  · rw [c7_scan_abort.2.2 _ ?_]
    · rfl
    · intro e he
      simp at he
      cases he
      intro _
      exact ⟨_, J.num 1, 1, rfl, rfl, rfl⟩

/-- C1 (counterexample): `dupWorld` serves at watermark 6000000 a page
whose only record (id `a`, date 5000000, a parsable date) is already in
the output directory, and serves a fresh record at every other
watermark.  The run issues exactly one listing query and finishes with
nothing written: the loop stops on the fully-duplicate page instead of
advancing the watermark to 4999000, where (second conjunct) a further
page with a new record was in fact available. -/
theorem c1_counterexample :
    save_transcripts dupWorld dupDir 6000000 5 = ⟨dupDir, [6000000], [], .finished⟩ ∧
    pageOf dupWorld 4999000 = .ok (some (J.arr [mkRecord "b" "B" 3000000])) :=
  ⟨rfl, rfl⟩

/-- C1 (amended): on a page in which every record's id is already in
the Existing-ID Set, the records are skipped before their dates are
ever read, `earliest_date` stays unset, and the loop terminates at that
page — the watermark is not advanced and no further listing query is
issued, regardless of remaining data. -/
theorem c1_duplicate_page_breaks (w : World) (existing : List J) (fuel : Nat)
    (last : Int) (dir : Dir) (qs : List Int) (ws : List (String × J)) (l : List J)
    (hpage : pageOf w last = .ok (some (J.arr l)))
    (hdup : ∀ t ∈ l, ∃ tid, pySubscript t "id" = .ok tid ∧
      existing.contains tid = true ∧ ∃ v, pySubscript t "title" = Except.ok v) :
    runLoop w existing (fuel + 1) last dir qs ws =
      ⟨dir, qs ++ [last], ws, .finished⟩ :=
  runLoop_all_duplicates hpage hdup

theorem c1_witness :
    runLoop dupWorld (scanExistingIds dupDir) 7 6000000 dupDir [] [] =
      ⟨dupDir, [6000000], [], .finished⟩ := by
  refine c1_duplicate_page_breaks dupWorld _ 6 6000000 dupDir [] []
    [mkRecord "a" "A" 5000000] rfl ?_
  intro t ht
  rw [List.mem_singleton] at ht
  subst ht
  exact ⟨J.str "a", rfl, rfl, ⟨J.str "A", rfl⟩⟩

/-- C5: a second run of the backfill loop over the directory a complete
first run produced, with the remote unchanged (so the first page is
either exhausted or consists entirely of records whose ids the
directory already holds), issues one listing query, writes nothing,
and leaves the directory exactly as it was. -/
theorem c5_second_run_noop (w : World) (dir : Dir) (t0 : Int) (fuel : Nat)
    (h : pageOf w t0 = .ok none ∨
      ∃ l, pageOf w t0 = .ok (some (J.arr l)) ∧
        ∀ t ∈ l, ∃ tid, pySubscript t "id" = .ok tid ∧
          (scanExistingIds dir).contains tid = true ∧
          ∃ v, pySubscript t "title" = Except.ok v) :
    save_transcripts w dir t0 (fuel + 1) = ⟨dir, [t0], [], .finished⟩ := by
  rcases h with h | ⟨l, hpage, hdup⟩
  · exact runLoop_break h
  · exact runLoop_all_duplicates hpage hdup

theorem c5_witness :
    save_transcripts c5World c5Dir 5000000 3 = ⟨c5Dir, [5000000], [], .finished⟩ := by
  refine c5_second_run_noop c5World c5Dir 5000000 2
    (Or.inr ⟨[mkRecord "c" "C" 4000000], rfl, ?_⟩)
  intro t ht
  rw [List.mem_singleton] at ht
  subst ht
  exact ⟨J.str "c", rfl, rfl, ⟨J.str "C", rfl⟩⟩

/-- C8 (counterexample): two whole-process crashes.  With
`missingDataWorld` the detail endpoint returns a 200 response without
the `data` key, and `data["data"]` raises an uncaught `KeyError`; with
`badDateWorld` the listing record's `date` is the string
`"not-a-number"`, and `int(transcript["date"])` raises an uncaught
`ValueError`.  Both terminate the run as crashes, refuting the claim
that such inputs never crash the process. -/
theorem c8_counterexample :
    save_transcripts missingDataWorld [] 7000000 3 =
      ⟨[], [7000000], [], .crashed .keyError⟩ ∧
    save_transcripts badDateWorld [] 7000000 3 =
      ⟨[], [7000000], [], .crashed .valueError⟩ :=
  ⟨rfl, rfl⟩

/-- C8 (amended): only `requests` transport errors, non-200 detail
statuses, GraphQL `errors` payloads and a malformed listing envelope
are absorbed (the last as a graceful loop break); a 200 detail response
lacking both `errors` and `data` keys raises `KeyError`, and a
non-numeric string date raises `ValueError`, neither of which is
caught. -/
theorem c8_error_propagation :
    (get_transcript_content .transportError = .ok .null) ∧
    (∀ (s : Int) (b : J), s ≠ 200 → get_transcript_content (.http s b) = .ok .null) ∧
    (∀ b : J, pyIn "errors" b = .ok true →
      get_transcript_content (.http 200 b) = .ok .null) ∧
    (∀ fields : List (String × J),
      fields.any (fun p => p.1 == "errors") = false →
      fields.any (fun p => p.1 == "data") = false →
      get_transcript_content (.http 200 (J.obj fields)) = .error .keyError) ∧
    (∀ s : String, pyStrToInt s = none → pyInt (J.str s) = .error .valueError) ∧
    (∀ (w : World) (existing : List J) (fuel : Nat) (last : Int) (dir : Dir)
        (qs : List Int) (ws : List (String × J)),
      pageOf w last = .ok none →
      runLoop w existing (fuel + 1) last dir qs ws =
        ⟨dir, qs ++ [last], ws, .finished⟩) := by
  refine ⟨rfl, ?_, ?_, ?_, ?_, ?_⟩
  · intro s b h
    simp [get_transcript_content, h]
  · intro b h
    simp [get_transcript_content, h]
  · intro fields h1 h2
    have hfind : fields.find? (fun p => p.1 == "data") = none := by
      rw [List.find?_eq_none]
      exact List.any_eq_false.mp h2
    simp [get_transcript_content, pyIn, pySubscript, h1, hfind]
  · intro s h
    simp [pyInt, h]
  · intro w existing fuel last dir qs ws h
    exact runLoop_break h

theorem c8_witness :
    get_transcript_content (.http 500 J.null) = .ok .null ∧
    get_transcript_content (.http 200 (J.obj [("errors", J.arr [J.str "e"])])) =
      .ok .null ∧
    get_transcript_content (.http 200 (J.obj [("ok", J.bool true)])) =
      .error .keyError ∧
    pyInt (J.str "oops") = .error .valueError ∧
    runLoop rescanWorld [] 1 123 [] [] [] = ⟨[], [123], [], .finished⟩ :=
  ⟨c8_error_propagation.2.1 500 J.null (by decide),
   c8_error_propagation.2.2.1 _ rfl,
   c8_error_propagation.2.2.2.1 _ rfl rfl,
   c8_error_propagation.2.2.2.2.1 "oops" rfl,
   c8_error_propagation.2.2.2.2.2 rescanWorld [] 0 123 [] [] [] rfl⟩

/-- C2: after a page whose processing derived at least one date, the
next listing query is issued with `toDate` equal to that page's
earliest derived date minus exactly one second (1000 ms); if no record
yielded a date the loop terminates with no further query; and the
`earliest_date` the loop uses is exactly the minimum of the dates of
the records saved from that page. -/
theorem c2_watermark_step :
    (∀ (w : World) (existing : List J) (fuel : Nat) (last : Int) (dir : Dir)
        (qs : List Int) (ws : List (String × J)) (l : List J) (st : PageState) (e : Int),
      pageOf w last = .ok (some (J.arr l)) →
      processPage w existing dir l = (st, none) →
      st.earliest = some e →
      runLoop w existing (fuel + 1) last dir qs ws =
        runLoop w existing fuel (e - 1000) st.dir (qs ++ [last]) (ws ++ st.writes)) ∧
    (∀ (w : World) (existing : List J) (fuel : Nat) (last : Int) (dir : Dir)
        (qs : List Int) (ws : List (String × J)) (l : List J) (st : PageState),
      pageOf w last = .ok (some (J.arr l)) →
      processPage w existing dir l = (st, none) →
      st.earliest = none →
      runLoop w existing (fuel + 1) last dir qs ws =
        ⟨st.dir, qs ++ [last], ws ++ st.writes, .finished⟩) ∧
    (∀ (w : World) (existing : List J) (dir : Dir) (l : List J) (st : PageState),
      processPage w existing dir l = (st, none) →
      st.earliest = (savedDates st.writes).min?) :=
  ⟨fun _ _ _ _ _ _ _ _ _ _ hpage hproc he => runLoop_advance hpage hproc he,
   fun _ _ _ _ _ _ _ _ _ hpage hproc he => runLoop_page_finish hpage hproc he,
   fun _ _ _ _ _ hproc => processPage_earliest hproc⟩

theorem c2_witness :
    runLoop c2World [] 3 6000000 [] [] [] =
      runLoop c2World [] 2 4999000
        [("1970-01-01_W.json", some (mkRecord "w2" "W" 5000000))] [6000000]
        [("1970-01-01_W.json", mkRecord "w2" "W" 5000000)] ∧
    runLoop c2World [J.str "w2"] 1 6000000 [] [] [] = ⟨[], [6000000], [], .finished⟩ ∧
    (some (5000000 : Int)) =
      (savedDates [("1970-01-01_W.json", mkRecord "w2" "W" 5000000)]).min? :=
  ⟨c2_watermark_step.1 c2World [] 2 6000000 [] [] [] [mkRecord "w2" "W" 5000000]
     ⟨[("1970-01-01_W.json", some (mkRecord "w2" "W" 5000000))],
      [("1970-01-01_W.json", mkRecord "w2" "W" 5000000)], some 5000000⟩ 5000000
     rfl rfl rfl,
   c2_watermark_step.2.1 c2World [J.str "w2"] 0 6000000 [] [] []
     [mkRecord "w2" "W" 5000000] ⟨[], [], none⟩ rfl rfl rfl,
   c2_watermark_step.2.2 c2World [] [] [mkRecord "w2" "W" 5000000]
     ⟨[("1970-01-01_W.json", some (mkRecord "w2" "W" 5000000))],
      [("1970-01-01_W.json", mkRecord "w2" "W" 5000000)], some 5000000⟩ rfl⟩


/-- C4: the detail fetch returns an absent result (`None`) on a non-200
status, a transport failure, or an `errors` payload (first three
conjuncts); for a non-duplicate record, when the detail fetch is absent
the object written to disk is the summary record itself, unchanged
(fourth conjunct), and when the detail fetch returns a (truthy) detail
object, that object is written instead (fifth conjunct). -/
theorem c4_persisted_object :
    (∀ (s : Int) (b : J), s ≠ 200 → get_transcript_content (.http s b) = .ok .null) ∧
    (get_transcript_content .transportError = .ok .null) ∧
    (∀ b : J, pyIn "errors" b = .ok true →
      get_transcript_content (.http 200 b) = .ok .null) ∧
    (∀ (w : World) (existing : List J) (st : PageState) (t tid dv : J) (dms : Int)
        (ts : String),
      pySubscript t "id" = .ok tid →
      existing.contains tid = false →
      get_transcript_content (w.detail tid) = .ok .null →
      pySubscript t "date" = .ok dv → pyInt dv = .ok dms →
      pySubscript t "title" = .ok (J.str ts) →
      processRecord w existing st t =
        .ok ⟨writeFile st.dir (fileNameFor dms ts) t,
             st.writes ++ [(fileNameFor dms ts, t)], updateMin st.earliest dms⟩) ∧
    (∀ (w : World) (existing : List J) (st : PageState) (t tid c dv : J) (dms : Int)
        (ts : String),
      pySubscript t "id" = .ok tid →
      existing.contains tid = false →
      (∃ v, pySubscript t "title" = Except.ok v) →
      get_transcript_content (w.detail tid) = .ok c → truthy c = true →
      pySubscript c "date" = .ok dv → pyInt dv = .ok dms →
      pySubscript c "title" = .ok (J.str ts) →
      processRecord w existing st t =
        .ok ⟨writeFile st.dir (fileNameFor dms ts) c,
             st.writes ++ [(fileNameFor dms ts, c)], updateMin st.earliest dms⟩) := by
  refine ⟨?_, rfl, ?_, ?_, ?_⟩
  · intro s b h
    simp [get_transcript_content, h]
  · intro b h
    simp [get_transcript_content, h]
  · intro w existing st t tid dv dms ts hid hmem hdetail hdate hdi hct
    simp [processRecord, hid, hmem, hdetail, hct, saveRecord, truthy, hdate, hdi]
  · intro w existing st t tid c dv dms ts hid hmem htitle hdetail htruthy hdate hdi hct
    obtain ⟨v, hv⟩ := htitle
    simp [processRecord, hid, hmem, hv, hdetail, htruthy, saveRecord, hdate, hdi, hct]

theorem c4_witness :
    get_transcript_content (.http 404 (J.str "nope")) = .ok .null ∧
    processRecord c2World [] ⟨[], [], none⟩ (mkRecord "s1" "S" 2000000) =
      .ok ⟨[("1970-01-01_S.json", some (mkRecord "s1" "S" 2000000))],
           [("1970-01-01_S.json", mkRecord "s1" "S" 2000000)], some 2000000⟩ ∧
    processRecord detailWorld [] ⟨[], [], none⟩ (mkRecord "s1" "S" 2000000) =
      .ok ⟨[("1970-01-01_Full.json",
              some (J.obj [("id", J.str "s1"), ("title", J.str "Full"),
                ("date", J.num 1500000)]))],
           [("1970-01-01_Full.json",
             J.obj [("id", J.str "s1"), ("title", J.str "Full"),
               ("date", J.num 1500000)])], some 1500000⟩ :=
  ⟨c4_persisted_object.1 404 (J.str "nope") (by decide),
   c4_persisted_object.2.2.2.1 c2World [] ⟨[], [], none⟩ (mkRecord "s1" "S" 2000000)
     (J.str "s1") (J.num 2000000) 2000000 "S" rfl rfl rfl rfl rfl rfl,
   c4_persisted_object.2.2.2.2 detailWorld [] ⟨[], [], none⟩ (mkRecord "s1" "S" 2000000)
     (J.str "s1")
     (J.obj [("id", J.str "s1"), ("title", J.str "Full"), ("date", J.num 1500000)])
     (J.num 1500000) 1500000 "Full" rfl rfl ⟨J.str "S", rfl⟩ rfl rfl rfl rfl rfl⟩

/-- C6 (counterexample): starting from an empty directory,
`rescanWorld` serves a record with id `dup` on page one and another
record with the same id `dup` on page two.  After page one the
directory contains a file whose id is `dup` (second conjunct), yet the
page-two record is not skipped: the write log shows two writes of id
`dup`, because the Existing-ID Set was built once, before the loop, and
is never rebuilt before a page. -/
theorem c6_counterexample :
    save_transcripts rescanWorld [] 9000000 4 =
      ⟨[("1970-01-01_B2.json", some (mkRecord "dup" "B2" 6000000)),
        ("1970-01-01_B.json", some (mkRecord "dup" "B" 8000000))],
       [9000000, 7999000, 5999000],
       [("1970-01-01_B.json", mkRecord "dup" "B" 8000000),
        ("1970-01-01_B2.json", mkRecord "dup" "B2" 6000000)], .finished⟩ ∧
    (scanExistingIds [("1970-01-01_B.json", some (mkRecord "dup" "B" 8000000))]).contains
      (J.str "dup") = true :=
  ⟨rfl, rfl⟩

theorem scanExistingIds_cons (e : String × Option J) (rest : Dir) :
    scanExistingIds (e :: rest) =
      if pyEndsWith e.1 ".json" then
        match e.2 with
        | some j =>
          match getKey j "id" with
          | some v => v :: scanExistingIds rest
          | none => scanExistingIds rest
        | none => scanExistingIds rest
      else scanExistingIds rest := rfl

theorem scanExistingIds_eq_filterMap (dir : Dir) :
    scanExistingIds dir = dir.filterMap
      (fun e => if pyEndsWith e.1 ".json" then e.2.bind (fun j => getKey j "id")
        else none) := by
  induction dir with
  | nil => rfl
  | cons e rest ih =>
    obtain ⟨name, c⟩ := e
    by_cases hjson : pyEndsWith name ".json"
    · cases c with
      | none => simp [scanExistingIds_cons, List.filterMap_cons, hjson, ih]
      | some j =>
        cases hid : getKey j "id" with
        | none =>
          simp [scanExistingIds_cons, List.filterMap_cons, hjson, hid, ih, Option.bind]
        | some u =>
          simp [scanExistingIds_cons, List.filterMap_cons, hjson, hid, ih, Option.bind]
    · simp [scanExistingIds_cons, List.filterMap_cons, hjson, ih]

/-- C6 (amended): the Existing-ID Set equals exactly the ids read from
the `.json` files of the output directory (first two conjuncts, the
second in membership form), and it is computed once, before the loop
starts; the loop threads that one set through every page, so the skip
test reflects the directory as it was at the start of the run, not at
the time each page is processed. -/
theorem c6_scan_once :
    (∀ dir : Dir, scanExistingIds dir = dir.filterMap
      (fun e => if pyEndsWith e.1 ".json" then e.2.bind (fun j => getKey j "id")
        else none)) ∧
    (∀ (dir : Dir) (v : J), v ∈ scanExistingIds dir ↔
      ∃ e ∈ dir, pyEndsWith e.1 ".json" = true ∧
        ∃ j, e.2 = some j ∧ getKey j "id" = some v) ∧
    (∀ (w : World) (dir : Dir) (t0 : Int) (fuel : Nat),
      save_transcripts w dir t0 fuel =
        runLoop w (scanExistingIds dir) fuel t0 dir [] []) := by
  refine ⟨scanExistingIds_eq_filterMap, ?_, fun _ _ _ _ => rfl⟩
  intro dir v
  rw [scanExistingIds_eq_filterMap, List.mem_filterMap]
  constructor
  · rintro ⟨e, he, hf⟩
    by_cases hjson : pyEndsWith e.1 ".json"
    · rw [if_pos hjson] at hf
      cases hc : e.2 with
      | none => rw [hc] at hf; cases hf
      | some j =>
        rw [hc] at hf
        exact ⟨e, he, hjson, j, hc, hf⟩
    · rw [if_neg hjson] at hf
      cases hf
  · rintro ⟨e, he, hjson, j, hc, hid⟩
    refine ⟨e, he, ?_⟩
    rw [if_pos hjson, hc]
    exact hid

theorem c6_witness :
    scanExistingIds [("a.json", some (J.obj [("id", J.str "z")])), ("b.txt", none)] =
      [J.str "z"] ∧
    (J.str "z" ∈ scanExistingIds [("a.json", some (J.obj [("id", J.str "z")]))]) ∧
    save_transcripts rescanWorld [] 9000000 0 =
      runLoop rescanWorld (scanExistingIds []) 0 9000000 [] [] [] := by
  refine ⟨?_, ?_, c6_scan_once.2.2 rescanWorld [] 9000000 0⟩
  · rw [c6_scan_once.1]
    rfl
  · rw [c6_scan_once.2.1]
    exact ⟨("a.json", some (J.obj [("id", J.str "z")])), by simp, rfl,
      J.obj [("id", J.str "z")], rfl, rfl⟩

/-- C10: a newly saved transcript id is never added to the in-memory
Existing-ID Set (the loop threads the initial set unchanged), so when
the API returns the same id on two different pages of one run — here
with the same title and a date one second earlier, landing on the same
calendar day — the record is fetched and written a second time, the
second write overwriting the first file: the final directory holds one
file whose content is the second record, while the write log shows two
writes to the same filename. -/

theorem c10_same_id_written_twice (i ttl : String) (d t0 : Int)
    (h1 : t0 ≠ d - 1000) (h2 : t0 ≠ d - 2000)
    (h3 : dateStr d = dateStr (d - 1000)) :
    save_transcripts (twoPageWorld i ttl d t0) [] t0 3 =
      ⟨[(fileNameFor d ttl, some (mkRecord i ttl (d - 1000)))],
       [t0, d - 1000, d - 2000],
       [(fileNameFor d ttl, mkRecord i ttl d),
        (fileNameFor d ttl, mkRecord i ttl (d - 1000))], .finished⟩ := by
  have harith : d - 1000 - 1000 = d - 2000 := by omega
  have hfn : fileNameFor (d - 1000) ttl = fileNameFor d ttl := by
    unfold fileNameFor
    rw [h3]
  have hlist1 : (twoPageWorld i ttl d t0).listing (listingVariables 25 (some t0)) =
      listPage (mkRecord i ttl d) := by
    show (if (listingVariables 25 (some t0)).toDate = some t0
        then listPage (mkRecord i ttl d)
        else if (listingVariables 25 (some t0)).toDate = some (d - 1000)
          then listPage (mkRecord i ttl (d - 1000)) else .transportError) =
      listPage (mkRecord i ttl d)
    exact if_pos rfl
  have hne1 : ¬((listingVariables 25 (some (d - 1000))).toDate = some t0) := by
    intro h
    exact h1 (Option.some.inj h).symm
  have hlist2 : (twoPageWorld i ttl d t0).listing
        (listingVariables 25 (some (d - 1000))) =
      listPage (mkRecord i ttl (d - 1000)) := by
    show (if (listingVariables 25 (some (d - 1000))).toDate = some t0
        then listPage (mkRecord i ttl d)
        else if (listingVariables 25 (some (d - 1000))).toDate = some (d - 1000)
          then listPage (mkRecord i ttl (d - 1000)) else .transportError) =
      listPage (mkRecord i ttl (d - 1000))
    rw [if_neg hne1]
    exact if_pos rfl
  have hne2 : ¬((listingVariables 25 (some (d - 1000 - 1000))).toDate = some t0) := by
    intro h
    have hh := Option.some.inj h
    omega
  have hne3 : ¬((listingVariables 25 (some (d - 1000 - 1000))).toDate =
      some (d - 1000)) := by
    intro h
    have hh := Option.some.inj h
    omega
  have hlist3 : (twoPageWorld i ttl d t0).listing
        (listingVariables 25 (some (d - 1000 - 1000))) = .transportError := by
    show (if (listingVariables 25 (some (d - 1000 - 1000))).toDate = some t0
        then listPage (mkRecord i ttl d)
        else if (listingVariables 25 (some (d - 1000 - 1000))).toDate = some (d - 1000)
          then listPage (mkRecord i ttl (d - 1000)) else .transportError) =
      Resp.transportError
    rw [if_neg hne2, if_neg hne3]
  have hp1 : pageOf (twoPageWorld i ttl d t0) t0 =
      .ok (some (J.arr [mkRecord i ttl d])) := by
    unfold pageOf get_transcripts
    rw [hlist1]
    rfl
  have hp2 : pageOf (twoPageWorld i ttl d t0) (d - 1000) =
      .ok (some (J.arr [mkRecord i ttl (d - 1000)])) := by
    unfold pageOf get_transcripts
    rw [hlist2]
    rfl
  have hp3 : pageOf (twoPageWorld i ttl d t0) (d - 1000 - 1000) = .ok none := by
    unfold pageOf get_transcripts
    rw [hlist3]
    rfl
  have hproc1 : processPage (twoPageWorld i ttl d t0) [] [] [mkRecord i ttl d] =
      (⟨[(fileNameFor d ttl, some (mkRecord i ttl d))],
        [(fileNameFor d ttl, mkRecord i ttl d)], some d⟩, none) := rfl
  have hproc2 : processPage (twoPageWorld i ttl d t0) []
      [(fileNameFor d ttl, some (mkRecord i ttl d))] [mkRecord i ttl (d - 1000)] =
      (⟨writeFile [(fileNameFor d ttl, some (mkRecord i ttl d))]
          (fileNameFor (d - 1000) ttl) (mkRecord i ttl (d - 1000)),
        [(fileNameFor (d - 1000) ttl, mkRecord i ttl (d - 1000))],
        some (d - 1000)⟩, none) := rfl
  have hwf : writeFile [(fileNameFor d ttl, some (mkRecord i ttl d))]
      (fileNameFor (d - 1000) ttl) (mkRecord i ttl (d - 1000)) =
      [(fileNameFor d ttl, some (mkRecord i ttl (d - 1000)))] := by
    rw [hfn]
    simp [writeFile, List.filter_cons, bne_self_eq_false]
  have hs1 := @runLoop_advance (twoPageWorld i ttl d t0) [] 2 t0 [] [] []
    [mkRecord i ttl d]
    ⟨[(fileNameFor d ttl, some (mkRecord i ttl d))],
     [(fileNameFor d ttl, mkRecord i ttl d)], some d⟩ d hp1 hproc1 rfl
  have hs2 := @runLoop_advance (twoPageWorld i ttl d t0) [] 1 (d - 1000)
    [(fileNameFor d ttl, some (mkRecord i ttl d))] [t0]
    [(fileNameFor d ttl, mkRecord i ttl d)] [mkRecord i ttl (d - 1000)]
    ⟨writeFile [(fileNameFor d ttl, some (mkRecord i ttl d))]
        (fileNameFor (d - 1000) ttl) (mkRecord i ttl (d - 1000)),
      [(fileNameFor (d - 1000) ttl, mkRecord i ttl (d - 1000))], some (d - 1000)⟩
    (d - 1000) hp2 hproc2 rfl
  rw [hwf, hfn, harith] at hs2
  have hs3 := @runLoop_break (twoPageWorld i ttl d t0) [] 0 (d - 1000 - 1000)
    [(fileNameFor d ttl, some (mkRecord i ttl (d - 1000)))] [t0, d - 1000]
    [(fileNameFor d ttl, mkRecord i ttl d),
     (fileNameFor d ttl, mkRecord i ttl (d - 1000))] hp3
  rw [harith] at hs3
  calc save_transcripts (twoPageWorld i ttl d t0) [] t0 3
      = runLoop (twoPageWorld i ttl d t0) [] 2 (d - 1000)
          [(fileNameFor d ttl, some (mkRecord i ttl d))] [t0]
          [(fileNameFor d ttl, mkRecord i ttl d)] := hs1
    _ = runLoop (twoPageWorld i ttl d t0) [] 1 (d - 2000)
          [(fileNameFor d ttl, some (mkRecord i ttl (d - 1000)))] [t0, d - 1000]
          [(fileNameFor d ttl, mkRecord i ttl d),
           (fileNameFor d ttl, mkRecord i ttl (d - 1000))] := hs2
    _ = ⟨[(fileNameFor d ttl, some (mkRecord i ttl (d - 1000)))],
         [t0, d - 1000, d - 2000],
         [(fileNameFor d ttl, mkRecord i ttl d),
          (fileNameFor d ttl, mkRecord i ttl (d - 1000))], .finished⟩ := hs3

theorem c10_witness :
    save_transcripts (twoPageWorld "x" "A" 5000000 6000000) [] 6000000 3 =
      ⟨[(fileNameFor 5000000 "A", some (mkRecord "x" "A" 4999000))],
       [6000000, 4999000, 4998000],
       [(fileNameFor 5000000 "A", mkRecord "x" "A" 5000000),
        (fileNameFor 5000000 "A", mkRecord "x" "A" 4999000)], .finished⟩ :=
  c10_same_id_written_twice "x" "A" 5000000 6000000 (by decide) (by decide) (by decide)

end Fireflies
